import Mathlib

/-!
Verification development for the rtcd SFU core.

Shallow embedding of:
* `service/rtc/rate.go` — the `RateMonitor` ring-buffered sliding-window
  bitrate estimator (`NewRateMonitor`, `PushSample`, `getSamplesDuration`,
  `GetRate`);
* `service/auth/service.go` + `service/store/bitcask.go` — the credential
  store and authentication service (`Authenticate`, `Register`, `Unregister`);
* the session/server signaling code (`session.addTrack`,
  `session.hasSignalingConflict`, `Server.Send`, `Server.msgReader`).

Modelling conventions:
* Go `time.Time` / `time.Duration` are both embedded as `Int` (nanoseconds).
  The injectable clock `now func() time.Time` is embedded by passing the
  current timestamp explicitly to the operations that call it.
* Go float64 arithmetic in `GetRate` (`math.Round((bytes/span.Seconds())*8)`)
  is embedded exactly over `ℚ`; the division-by-zero case (`span == 0`, where
  Go produces an implementation-defined integer from `±Inf`/`NaN`) is embedded
  as `0`, which like Go's result is never `-1`.
* Concurrency (mutexes, goroutines) is erased: each method is a function on
  the state it guards; channels are bounded FIFO queues.
-/

namespace Rtcd

/-! ### RateMonitor (`service/rtc/rate.go`) -/

/-- State of a `RateMonitor` (rate.go, lines 13-21).  `samples` are byte
counts, `timestamps` the corresponding push times in nanoseconds, and
`samplesPtr` the insertion cursor.  The injected clock is erased (times are
passed to the operations explicitly). -/
structure RateMonitor where
  samples : List Int
  timestamps : List Int
  samplesPtr : Nat
  samplingSize : Int
  filled : Bool
deriving DecidableEq, Repr

/-- The freshly-constructed monitor body (rate.go, lines 32-37). -/
def RateMonitor.init (samplingSize : Int) : RateMonitor :=
  { samples := [], timestamps := [], samplesPtr := 0
    samplingSize := samplingSize, filled := false }

/-- `NewRateMonitor` (rate.go, lines 23-38): fails when `samplingSize <= 0`. -/
def NewRateMonitor (samplingSize : Int) : Option RateMonitor :=
  if samplingSize ≤ 0 then none else some (RateMonitor.init samplingSize)

/-- `getSamplesDuration` (rate.go, lines 69-78): newest stored timestamp minus
oldest stored timestamp.  (Go indexes with `int` arithmetic; the `Nat`
truncation in `samplesPtr - 1` matters only for states with
`samplesPtr = 0 < len(timestamps)`, which no sequence of operations
produces.) -/
def RateMonitor.getSamplesDuration (m : RateMonitor) : Int :=
  if m.timestamps.length = 0 then 0
  else
    m.timestamps.getD ((m.samplesPtr - 1) % m.timestamps.length) 0 -
      m.timestamps.getD (m.samplesPtr % m.timestamps.length) 0

/-- `PushSample` (rate.go, lines 40-60).  While unfilled and the stored span
is below `samplingSize*2` the sample is appended and the monitor declared
filled as soon as the span reaches `samplingSize*2`; afterwards the slot at
`samplesPtr % len` is overwritten. -/
def RateMonitor.PushSample (m : RateMonitor) (size : Int) (now : Int) : RateMonitor :=
  if m.filled = false ∧ m.getSamplesDuration < m.samplingSize * 2 then
    let m' : RateMonitor :=
      { m with samples := m.samples ++ [size]
               timestamps := m.timestamps ++ [now]
               samplesPtr := m.samplesPtr + 1 }
    if m.samplingSize * 2 ≤ m'.getSamplesDuration then { m' with filled := true } else m'
  else
    { m with samples := m.samples.set (m.samplesPtr % m.samples.length) size
             timestamps := m.timestamps.set (m.samplesPtr % m.timestamps.length) now
             samplesPtr := m.samplesPtr + 1 }

/-- The bits-per-second computation of `GetRate` (rate.go, line 101):
`math.Round((float64(totalBytes) / samplesDuration.Seconds()) * 8)` over exact
rationals; `Seconds()` divides the nanosecond count by `1e9`.  A zero span
(Go: `±Inf`/`NaN` converted to an implementation-defined integer, never `-1`)
is embedded as `0`. -/
def rateOf (totalBytes samplesDuration : Int) : Int :=
  if samplesDuration = 0 then 0
  else round (((totalBytes * 8 * 1000000000 : Int) : ℚ) / ((samplesDuration : Int) : ℚ))

/-- The backward walk of `GetRate` (rate.go, lines 92-99): starting from the
newest sample, accumulate bytes and recompute the covered span until the span
reaches `samplingSize` or all stored samples are consumed.  `r` counts the
remaining iterations (initially `len(samples)`); the iteration with
`r` remaining visits Go's loop index `i = samplesPtr - 1 - (len - r)`. -/
def RateMonitor.getRateLoop (m : RateMonitor) (now : Int) :
    Nat → Int → Int → Int × Int
  | 0, totalBytes, samplesDuration => (totalBytes, samplesDuration)
  | r + 1, totalBytes, _ =>
    let j := m.samples.length - (r + 1)
    let dur := now - m.timestamps.getD ((m.samplesPtr - 1 - j) % m.timestamps.length) 0
    let bytes := totalBytes + m.samples.getD ((m.samplesPtr - 1 - j) % m.samples.length) 0
    if m.samplingSize ≤ dur then (bytes, dur)
    else m.getRateLoop now r bytes dur

/-- `GetRate` (rate.go, lines 80-104): `(-1, 0)` until filled; afterwards the
rounded bits-per-second over the covered span, and the span itself. -/
def RateMonitor.GetRate (m : RateMonitor) (now : Int) : Int × Int :=
  if m.filled = false then (-1, 0)
  else
    let bd := m.getRateLoop now m.samples.length 0 0
    (rateOf bd.1 bd.2, bd.2)

/-- Folding a list of `(size, time)` pushes into a monitor. -/
def pushAll (m : RateMonitor) (ps : List (Int × Int)) : RateMonitor :=
  ps.foldl (fun acc p => acc.PushSample p.1 p.2) m

/-! ### Association lists

The Go code keeps its maps (`store`, `groups`, `calls`, `sessions`) as hash
maps; they are embedded as association lists with string keys. -/

/-- Lookup in an association list (first matching key). -/
def alookup {α : Type} : List (String × α) → String → Option α
  | [], _ => none
  | (k, v) :: rest, key => if key = k then some v else alookup rest key

/-- Replace the value stored under an existing key. -/
def aupdate {α : Type} (l : List (String × α)) (key : String) (v : α) :
    List (String × α) :=
  l.map fun p => if p.1 = key then (key, v) else p

/-- Remove every binding of a key. -/
def aremove {α : Type} (l : List (String × α)) (key : String) : List (String × α) :=
  l.filter fun p => decide (p.1 ≠ key)

/-! ### Credential store (`service/store/bitcask.go`) -/

/-- Store errors surfaced by the bitcask wrapper: `ErrNotFound` and
`ErrEmptyKey`. -/
inductive StoreErr
  | notFound
  | emptyKey
deriving DecidableEq, Repr

/-- Contents of the persistent key/value store, keyed by id.  The external
bitcask database is embedded as a finite map; its own I/O failure modes are
out of scope (the wrapper would surface them as distinct wrapped errors). -/
abbrev KVStore := List (String × String)

/-- `bitcaskStore.Get` (bitcask.go, lines 41-52): empty keys rejected with
`ErrEmptyKey`; a missing key is `ErrNotFound`. -/
def storeGet (st : KVStore) (key : String) : Except StoreErr String :=
  if key = "" then .error .emptyKey
  else
    match alookup st key with
    | some v => .ok v
    | none => .error .notFound

/-- `bitcaskStore.Set` (bitcask.go, lines 30-39): empty keys rejected;
otherwise the binding is created or overwritten. -/
def storeSet (st : KVStore) (key value : String) : Except StoreErr KVStore :=
  if key = "" then .error .emptyKey
  else .ok ((key, value) :: aremove st key)

/-- `bitcaskStore.Delete` (bitcask.go, lines 54-63): empty keys rejected;
otherwise the binding is removed. -/
def storeDelete (st : KVStore) (key : String) : Except StoreErr KVStore :=
  if key = "" then .error .emptyKey
  else .ok (aremove st key)

/-! ### Authentication service (`service/auth/service.go`) -/

/-- Errors returned by the auth service.  `wrappedStore e` stands for the
`fmt.Errorf("...: %w", err)` wrappings of a store error (so
`errors.Is(err, store.ErrNotFound)` holds exactly for
`wrappedStore .notFound`); `compareFailed` is the unwrapped
"authentication failed"; `alreadyRegistered` is
"registration failed: already registered". -/
inductive AuthErr
  | wrappedStore (e : StoreErr)
  | compareFailed
  | alreadyRegistered
deriving DecidableEq, Repr

/-- Modelled from the spec: `hashKey` (service/auth, hashing helper whose
source file is not included) maps an auth key to its stored hash; the spec
says keys are hashed before storage.  It is kept as an abstract parameter. -/
def compareKeyHash (hashKey : String → String) (hash authKey : String) : Bool :=
  hash = hashKey authKey

/-- `Service.Authenticate` (service.go, lines 28-37): fetch the stored hash
(wrapping store errors) and compare it against the presented key;
`compareKeyHash` failure yields the bare "authentication failed" error. -/
def authenticate (hashKey : String → String) (st : KVStore) (id authKey : String) :
    Except AuthErr Unit :=
  match storeGet st id with
  | .error e => .error (.wrappedStore e)
  | .ok hash =>
    if compareKeyHash hashKey hash authKey then .ok () else .error .compareFailed

/-- `Service.Register` (service.go, lines 39-61).  A present id fails with
"already registered"; a store error other than `ErrNotFound` is wrapped;
otherwise a fresh random key is generated, hashed and stored.
`newRandomString` (source not included; per the spec a 32-byte random key that
is returned in plaintext exactly once) is embedded as the caller-supplied
`freshKey` oracle, and its error path (a failing system RNG) is out of scope.
The store is returned unchanged on every failure. -/
def register (hashKey : String → String) (st : KVStore) (id freshKey : String) :
    Except AuthErr String × KVStore :=
  match storeGet st id with
  | .ok _ => (.error .alreadyRegistered, st)
  | .error e =>
    if e = StoreErr.notFound then
      match storeSet st id (hashKey freshKey) with
      | .error e' => (.error (.wrappedStore e'), st)
      | .ok st' => (.ok freshKey, st')
    else (.error (.wrappedStore e), st)

/-- `Service.Unregister` (service.go, lines 63-74): a failing `Get` aborts
with a wrapped error; otherwise the binding is deleted. -/
def unregister (st : KVStore) (id : String) : Except AuthErr Unit × KVStore :=
  match storeGet st id with
  | .error e => (.error (.wrappedStore e), st)
  | .ok _ =>
    match storeDelete st id with
    | .error e => (.error (.wrappedStore e), st)
    | .ok st' => (.ok (), st')

/-! ### Channels

Go's bounded channels, written to only through `select { case ch <- x:
default: ... }`, are embedded as bounded FIFO queues with a non-blocking
`trySend` that reports whether the value was enqueued. -/

/-- A bounded channel: buffered contents plus capacity. -/
structure Chan (α : Type) where
  buf : List α
  cap : Nat
deriving DecidableEq

/-- Non-blocking send (`select`/`default`): enqueue if there is room,
otherwise leave the channel untouched and report failure. -/
def Chan.trySend {α : Type} (c : Chan α) (x : α) : Chan α × Bool :=
  if c.buf.length < c.cap then ({ c with buf := c.buf ++ [x] }, true)
  else (c, false)

/-- `msgChSize = 256` (server source). -/
def msgChSize : Nat := 256

/-- `signalChSize = 20` (session source). -/
def signalChSize : Nat := 20

/-- `signalingTimeout = 10 * time.Second`, in nanoseconds. -/
def signalingTimeout : Int := 10 * 1000000000

/-! ### Messages (`Message` envelope and payloads)

The wire payload is raw JSON bytes; the external `encoding/json` codec is
embedded by structuring the payload space: a payload either is a well-formed
encoding of one of the known shapes or is malformed (`raw`), and the
`json.Unmarshal` calls become total pattern matches. -/

/-- `webrtc.SDPType`. -/
inductive SDPType
  | offer
  | answer
  | pranswer
  | rollback
deriving DecidableEq, Repr

/-- `webrtc.SessionDescription`. -/
structure SessionDescription where
  sdpType : SDPType
  sdp : String
deriving DecidableEq, Repr

/-- Message payload bytes (see the module comment above): a well-formed SDP
JSON document, a well-formed string-map JSON document (`ScreenOn` payloads),
or any other byte string.  ICE payloads are forwarded by the pump without
parsing, so they stay raw here. -/
inductive MsgData
  | sdpDoc (desc : SessionDescription)
  | mapDoc (entries : List (String × String))
  | raw (bytes : String)
deriving DecidableEq

/-- `json.Unmarshal(msg.Data, &sdp)` for a `webrtc.SessionDescription`. -/
def unmarshalSDP : MsgData → Option SessionDescription
  | .sdpDoc desc => some desc
  | _ => none

/-- `json.Unmarshal(msg.Data, &data)` for a `map[string]string`. -/
def unmarshalStringMap : MsgData → Option (List (String × String))
  | .mapDoc entries => some entries
  | _ => none

/-- Message types (inbound ones handled by the pump plus the outbound
voice-activity ones). -/
inductive MessageType
  | ice
  | sdp
  | screenOn
  | screenOff
  | mute
  | unmute
  | voiceOn
  | voiceOff
deriving DecidableEq, Repr

/-- The message envelope `{SessionID, GroupID, CallID, Type, Data}`. -/
structure Message where
  sessionID : String
  groupID : String
  callID : String
  mtype : MessageType
  data : MsgData
deriving DecidableEq

/-- Modelled from the spec (`Message.IsValid` is not among the given source
files): "IsValid requires non-empty identifiers and a known type"; every
`MessageType` inhabitant is a known type. -/
def Message.isValid (msg : Message) : Bool :=
  msg.sessionID ≠ "" && msg.groupID ≠ "" && msg.callID ≠ ""

/-! ### Sessions, calls, groups, server -/

/-- Track kinds (`webrtc.RTPCodecType`). -/
inductive TrackKind
  | audio
  | video
deriving DecidableEq, Repr

/-- A local track, identified by its id (Go compares tracks by pointer;
distinct tracks are embedded with distinct ids). -/
structure Track where
  id : String
  kind : TrackKind
deriving DecidableEq, Repr

/-- `webrtc.SignalingState` of a peer connection. -/
inductive SignalingState
  | stable
  | haveLocalOffer
  | haveRemoteOffer
  | closed
deriving DecidableEq, Repr

/-- The slice of peer-connection state the dispatched messages can observe. -/
structure PeerConn where
  signalingState : SignalingState
deriving DecidableEq

/-- The VAD monitor handle; `Reset()` is observable as a counter bump. -/
structure VadMonitor where
  resets : Nat
deriving DecidableEq

/-- `SessionConfig` identifiers. -/
structure SessionConfig where
  groupID : String
  callID : String
  sessionID : String
deriving DecidableEq

/-- Per-participant session state (`session` struct): the fields read or
written by the message pump and the signaling dispatcher.  Media-track maps
(`outScreenTracks`, `remoteScreenTracks`, `screenRateMonitors`,
rtcp/forwarding state) are carried by the sessions but never touched by the
pump, so they are not part of this embedding. -/
structure RTCSession where
  cfg : SessionConfig
  rtcConn : Option PeerConn
  iceInCh : Chan MsgData
  sdpOfferInCh : Chan SessionDescription
  sdpAnswerInCh : Chan SessionDescription
  outVoiceTrack : Option Track
  outVoiceTrackEnabled : Bool
  screenStreamID : String
  vadMonitor : Option VadMonitor
  makingOffer : Bool
deriving DecidableEq

/-- `session.hasSignalingConflict` (session source, lines 448-455): with no
peer connection there is no conflict; otherwise a conflict is a pending local
offer (`makingOffer`) or a non-`Stable` signaling state. -/
def RTCSession.hasSignalingConflict (s : RTCSession) : Bool :=
  match s.rtcConn with
  | none => false
  | some pc => s.makingOffer || decide (pc.signalingState ≠ SignalingState.stable)

/-- Call state: the session map and the elected screen-sharing session. -/
structure CallState where
  id : String
  sessions : List (String × RTCSession)
  screenSession : Option String
deriving DecidableEq

/-- `call.getSession`. -/
def CallState.getSession (c : CallState) (id : String) : Option RTCSession :=
  alookup c.sessions id

/-- Modelled from the spec (`call.setScreenSession` is not among the given
source files): "At most one session in a Call holds the screen role ... if
the slot is empty, the sender session is recorded"; the pump treats a `false`
return as the failed election.  Returns the updated call and whether the
caller was elected. -/
def CallState.setScreenSession (c : CallState) (s : RTCSession) : CallState × Bool :=
  match c.screenSession with
  | none => ({ c with screenSession := some s.cfg.sessionID }, true)
  | some _ => (c, false)

/-- Modelled from the spec (`call.clearScreenState` is not among the given
source files): `ScreenOff` "clears the slot", and the presenter session's own
screen state is reset per `session.clearScreenState` in the session source
(screenStreamID cleared; its track maps are outside this embedding). -/
def CallState.clearScreenState (c : CallState) (sid : String) : CallState :=
  if c.screenSession = some sid then
    { c with
      screenSession := none
      sessions := aupdate c.sessions sid
        (match alookup c.sessions sid with
         | some s => { s with screenStreamID := "" }
         | none => { cfg := { groupID := "", callID := "", sessionID := sid }
                     rtcConn := none
                     iceInCh := { buf := [], cap := signalChSize }
                     sdpOfferInCh := { buf := [], cap := signalChSize }
                     sdpAnswerInCh := { buf := [], cap := signalChSize }
                     outVoiceTrack := none, outVoiceTrackEnabled := false
                     screenStreamID := "", vadMonitor := none
                     makingOffer := false }) }
  else c

/-- Group state: the call map. -/
structure GroupState where
  id : String
  calls : List (String × CallState)
deriving DecidableEq

/-- Server state observed by `Send` and the message pump. -/
structure ServerState where
  groups : List (String × GroupState)
  sessions : List (String × SessionConfig)
  sendCh : Chan Message
deriving DecidableEq

/-- `Server.getGroup`. -/
def ServerState.getGroup (s : ServerState) (id : String) : Option GroupState :=
  alookup s.groups id

/-- `group.getCall`. -/
def GroupState.getCall (g : GroupState) (id : String) : Option CallState :=
  alookup g.calls id

/-- `Server.Send` (server source, lines 71-78): non-blocking write to the
inbound channel; a full channel yields an error and leaves the channel
untouched. -/
inductive SendErr
  | channelFull
deriving DecidableEq, Repr

/-- `Server.Send`. -/
def ServerState.send (s : ServerState) (msg : Message) :
    ServerState × Option SendErr :=
  match s.sendCh.trySend msg with
  | (ch, true) => ({ s with sendCh := ch }, none)
  | (_, false) => (s, some .channelFull)

/-- Error/warning log sites of one pump iteration (debug-level logging is not
modelled). -/
inductive LogEvent
  | invalidMessage
  | sessionCfgNotFound
  | groupNotFound
  | callNotFound
  | sessionNotFound
  | iceChanFull
  | sdpUnmarshalError
  | sdpChanFull
  | unexpectedSdpType
  | screenDataUnmarshalError
  | screenSessionAlreadySet
  | unexpectedMessageType
deriving DecidableEq, Repr

/-- Whether the pump loop continues with the next message or the pump
function returns. -/
inductive StepOutcome
  | cont
  | halted
deriving DecidableEq, Repr

/-- Write an updated session back through the group → call → server chain
(the Go code mutates the shared session/call structs in place). -/
def writeBackCall (srv : ServerState) (gid cid : String) (g : GroupState)
    (c : CallState) : ServerState :=
  { srv with groups := aupdate srv.groups gid { g with calls := aupdate g.calls cid c } }

/-- Write an updated session back in its call. -/
def writeBackSession (srv : ServerState) (gid cid : String) (g : GroupState)
    (c : CallState) (sess : RTCSession) : ServerState :=
  writeBackCall srv gid cid g
    { c with sessions := aupdate c.sessions sess.cfg.sessionID sess }

/-- One iteration of `Server.msgReader` (server source, lines 178-300): the
per-message validation, the (group → call → session) lookup, and the
per-type dispatch.  Returns the new server state, the error logs emitted, and
whether the loop continues (`continue`) or the pump returns (`return`). -/
def dispatchMsg (srv : ServerState) (msg : Message) :
    ServerState × List LogEvent × StepOutcome :=
  if msg.isValid = false then (srv, [.invalidMessage], .cont)
  else
    match alookup srv.sessions msg.sessionID with
    | none => (srv, [.sessionCfgNotFound], .cont)
    | some cfg =>
      match srv.getGroup cfg.groupID with
      | none => (srv, [.groupNotFound], .cont)
      | some g =>
        match g.getCall cfg.callID with
        | none => (srv, [.callNotFound], .cont)
        | some c =>
          match c.getSession cfg.sessionID with
          | none => (srv, [.sessionNotFound], .cont)
          | some sess =>
            match msg.mtype with
            | .ice =>
              match sess.iceInCh.trySend msg.data with
              | (ch, true) =>
                (writeBackSession srv cfg.groupID cfg.callID g c
                  { sess with iceInCh := ch }, [], .cont)
              | (_, false) => (srv, [.iceChanFull], .cont)
            | .sdp =>
              match unmarshalSDP msg.data with
              | none => (srv, [.sdpUnmarshalError], .cont)
              | some sdp =>
                if sdp.sdpType = SDPType.offer ∧ sess.hasSignalingConflict then
                  (srv, [], .cont)
                else if sdp.sdpType = SDPType.offer then
                  match sess.sdpOfferInCh.trySend sdp with
                  | (ch, true) =>
                    (writeBackSession srv cfg.groupID cfg.callID g c
                      { sess with sdpOfferInCh := ch }, [], .cont)
                  | (_, false) => (srv, [.sdpChanFull], .cont)
                else if sdp.sdpType = SDPType.answer then
                  match sess.sdpAnswerInCh.trySend sdp with
                  | (ch, true) =>
                    (writeBackSession srv cfg.groupID cfg.callID g c
                      { sess with sdpAnswerInCh := ch }, [], .cont)
                  | (_, false) => (srv, [.sdpChanFull], .cont)
                else (srv, [.unexpectedSdpType], .halted)
            | .screenOn =>
              match unmarshalStringMap msg.data with
              | none => (srv, [.screenDataUnmarshalError], .cont)
              | some entries =>
                let sess' :=
                  { sess with screenStreamID := (alookup entries "screenStreamID").getD "" }
                let c' := { c with sessions := aupdate c.sessions sess'.cfg.sessionID sess' }
                match c'.setScreenSession sess' with
                | (c'', true) => (writeBackCall srv cfg.groupID cfg.callID g c'', [], .cont)
                | (c'', false) =>
                  (writeBackCall srv cfg.groupID cfg.callID g c'',
                    [.screenSessionAlreadySet], .cont)
            | .screenOff =>
              (writeBackCall srv cfg.groupID cfg.callID g
                (c.clearScreenState cfg.sessionID), [], .cont)
            | .mute =>
              match sess.outVoiceTrack with
              | none => (srv, [], .cont)
              | some _ =>
                let sess' :=
                  { sess with
                    vadMonitor := sess.vadMonitor.map fun v => { resets := v.resets + 1 }
                    outVoiceTrackEnabled := false }
                (writeBackSession srv cfg.groupID cfg.callID g c sess', [], .cont)
            | .unmute =>
              match sess.outVoiceTrack with
              | none => (srv, [], .cont)
              | some _ =>
                (writeBackSession srv cfg.groupID cfg.callID g c
                  { sess with outVoiceTrackEnabled := true }, [], .cont)
            | _ => (srv, [.unexpectedMessageType], .cont)

/-- The pump loop of `Server.msgReader` over a queue of inbound messages:
dispatch each in turn, stopping early when an iteration returns. -/
def msgReaderRun (srv : ServerState) : List Message → ServerState × List LogEvent
  | [] => (srv, [])
  | msg :: rest =>
    match dispatchMsg srv msg with
    | (srv', log, .halted) => (srv', log)
    | (srv', log, .cont) =>
      let out := msgReaderRun srv' rest
      (out.1, log ++ out.2)

/-! ### `session.addTrack` (session source, lines 279-360)

`addTrack` interleaves state mutation with calls into the WebRTC stack and a
three-way `select` on the answer channel, the signaling timeout and the close
signal.  The externally-decided outcomes are gathered in an environment
record; the session state it reads and writes is the sender list, the screen
track sender slot, the `makingOffer` flag and the outbound-tracks metric
gauge.  Senders are identified by their index in the sender list
(`screenTrackSender` stores such an index). -/

/-- An `RTPSender`: `ReplaceTrack(nil)` clears its track. -/
structure RTPSender where
  track : Option Track
deriving DecidableEq, Repr

/-- Session state read and written by `addTrack`. -/
structure AddTrackState where
  senders : List RTPSender
  screenTrackSender : Option Nat
  makingOffer : Bool
  metricOutTracks : Int
deriving DecidableEq, Repr

/-- How the `select` over `sdpAnswerInCh` / `time.After(signalingTimeout)` /
`closeCh` resolves, and whether `SetRemoteDescription` succeeds on a received
answer. -/
inductive AnswerOutcome
  | answer (setRemoteOk : Bool)
  | answerChClosed
  | timeout
  | closed
deriving DecidableEq, Repr

/-- Outcomes of the external calls made during one `addTrack`:
`rtcConn.AddTrack`, the offer emission (`CreateOffer`/`SetLocalDescription`/
marshalling/non-blocking channel send, collapsed into one success bit), the
`select`, and the deferred `sender.ReplaceTrack(nil)` used on the error
path. -/
structure AddTrackEnv where
  addTrackOk : Bool
  offerOk : Bool
  answerOutcome : AnswerOutcome
  replaceOk : Bool
deriving DecidableEq, Repr

/-- The errors `addTrack` can return. -/
inductive AddTrackErr
  | nilTrack
  | senderExists
  | screenSenderSet
  | addTrackFailed
  | offerFailed
  | setRemoteFailed
  | timedOut
deriving DecidableEq, Repr

/-- The deferred error-path cleanup of `addTrack` (lines 317-331): replace
the just-attached track with `nil` and, only when that succeeds, decrement
the outbound-tracks metric. -/
def addTrackCleanup (st : AddTrackState) (idx : Nat) (env : AddTrackEnv) :
    AddTrackState :=
  if env.replaceOk then
    { st with senders := st.senders.set idx { track := none }
              metricOutTracks := st.metricOutTracks - 1 }
  else st

/-- `session.addTrack`.  Mirrors the source line by line: nil-track guard;
`makingOffer` raised for the whole call (every exit path lowers it via the
deferred reset); duplicate-sender and screen-sender guards;
`rtcConn.AddTrack` plus metric increment; deferred cleanup on any later
error; offer emission; the three-way `select`; on an applied answer for a
video track the new sender is stored as `screenTrackSender`. -/
def addTrack (st : AddTrackState) (track : Option Track) (env : AddTrackEnv) :
    AddTrackState × Option AddTrackErr :=
  match track with
  | none => (st, some .nilTrack)
  | some tr =>
    if st.senders.any fun sd => sd.track = some tr then
      ({ st with makingOffer := false }, some .senderExists)
    else if tr.kind = TrackKind.video ∧ st.screenTrackSender ≠ none then
      ({ st with makingOffer := false }, some .screenSenderSet)
    else if env.addTrackOk = false then
      ({ st with makingOffer := false }, some .addTrackFailed)
    else
      let idx := st.senders.length
      let st1 :=
        { st with senders := st.senders ++ [{ track := some tr }]
                  metricOutTracks := st.metricOutTracks + 1 }
      if env.offerOk = false then
        ({ addTrackCleanup st1 idx env with makingOffer := false }, some .offerFailed)
      else
        match env.answerOutcome with
        | .answer true =>
          if tr.kind = TrackKind.video then
            ({ st1 with screenTrackSender := some idx, makingOffer := false }, none)
          else ({ st1 with makingOffer := false }, none)
        | .answer false =>
          ({ addTrackCleanup st1 idx env with makingOffer := false }, some .setRemoteFailed)
        | .answerChClosed => ({ st1 with makingOffer := false }, none)
        | .timeout =>
          ({ addTrackCleanup st1 idx env with makingOffer := false }, some .timedOut)
        | .closed => ({ st1 with makingOffer := false }, none)

/-! ### Concrete fixtures (used to instantiate the theorems) -/

/-- A sample session configuration. -/
def exampleCfg : SessionConfig :=
  { groupID := "g", callID := "c", sessionID := "s" }

/-- A sample session in the Stable signaling state, with configurable
`makingOffer` flag, channel contents and screen stream id. -/
def exampleSession (mo : Bool) (iceBuf : List MsgData)
    (offerBuf answerBuf : List SessionDescription) (screenID : String) :
    RTCSession :=
  { cfg := exampleCfg
    rtcConn := some { signalingState := SignalingState.stable }
    iceInCh := { buf := iceBuf, cap := signalChSize }
    sdpOfferInCh := { buf := offerBuf, cap := signalChSize }
    sdpAnswerInCh := { buf := answerBuf, cap := signalChSize }
    outVoiceTrack := none
    outVoiceTrackEnabled := false
    screenStreamID := screenID
    vadMonitor := none
    makingOffer := mo }

/-- A sample message addressed to the sample session. -/
def exampleMsg (mt : MessageType) (d : MsgData) : Message :=
  { sessionID := "s", groupID := "g", callID := "c", mtype := mt, data := d }

/-- A sample one-session call around a given session, with a configurable
elected screen session. -/
def exampleCall (sess : RTCSession) (screen : Option String) : CallState :=
  { id := "c", sessions := [("s", sess)], screenSession := screen }

/-- A sample one-call group. -/
def exampleGroup (sess : RTCSession) (screen : Option String) : GroupState :=
  { id := "g", calls := [("c", exampleCall sess screen)] }

/-- A sample one-group, one-call, one-session server around a given session,
with a configurable elected screen session. -/
def exampleServer (sess : RTCSession) (screen : Option String) : ServerState :=
  { groups := [("g", exampleGroup sess screen)]
    sessions := [("s", exampleCfg)]
    sendCh := { buf := [], cap := msgChSize } }

/-- A sample screen-share video track. -/
def exampleScreenTrack : Track := { id := "screen", kind := TrackKind.video }

/-- A session state with no senders attached yet. -/
def emptyAddTrackState : AddTrackState :=
  { senders := [], screenTrackSender := none, makingOffer := false
    metricOutTracks := 0 }

/-- An `addTrack` environment whose external calls succeed, with configurable
offer emission result and `select` outcome. -/
def exampleAddTrackEnv (offerOk : Bool) (ao : AnswerOutcome) : AddTrackEnv :=
  { addTrackOk := true, offerOk := offerOk, answerOutcome := ao, replaceOk := true }

/-- Reachable-state invariant of the `RateMonitor` ring buffer, for push
histories with non-decreasing clock readings; `lastT` is the time of the most
recent push (arbitrary for an empty history).  `hring` says the stored
timestamps are non-decreasing when read in ring order starting at the cursor
(oldest first). -/
structure RMInv (m : RateMonitor) (lastT : Int) : Prop where
  hlen : m.samples.length = m.timestamps.length
  hptr : m.timestamps.length ≤ m.samplesPtr
  hunf : m.filled = false → m.samplesPtr = m.timestamps.length ∧
    m.getSamplesDuration < m.samplingSize * 2
  hring : ∀ i, i + 1 < m.timestamps.length →
    m.timestamps.getD ((m.samplesPtr + i) % m.timestamps.length) 0 ≤
      m.timestamps.getD ((m.samplesPtr + i + 1) % m.timestamps.length) 0
  hlast : 0 < m.timestamps.length →
    m.timestamps.getD ((m.samplesPtr - 1) % m.timestamps.length) 0 = lastT

/-! ## Theorems

### List and modular-arithmetic helpers -/

theorem getD_set_self {α : Type} (d v : α) :
    ∀ (l : List α) (i : Nat), i < l.length → (l.set i v).getD i d = v := by
  intro l
  induction l with
  | nil => intro i h; simp at h
  | cons a t ih =>
    intro i h
    cases i with
    | zero => simp [List.set, List.getD]
    | succ j =>
      simp only [List.set, List.getD, List.getElem?_cons_succ]
      exact ih j (by simpa using h)

theorem getD_set_ne {α : Type} (d v : α) :
    ∀ (l : List α) (i j : Nat), i ≠ j → (l.set i v).getD j d = l.getD j d := by
  intro l
  induction l with
  | nil => intro i j _; simp [List.set]
  | cons a t ih =>
    intro i j hne
    cases i with
    | zero =>
      cases j with
      | zero => exact absurd rfl hne
      | succ j' => simp [List.set, List.getD]
    | succ i' =>
      cases j with
      | zero => simp [List.set, List.getD]
      | succ j' =>
        simp only [List.set, List.getD, List.getElem?_cons_succ]
        exact ih i' j' (fun h => hne (by rw [h]))

theorem getD_append_lt {α : Type} (d : α) :
    ∀ (l l' : List α) (i : Nat), i < l.length → (l ++ l').getD i d = l.getD i d := by
  intro l
  induction l with
  | nil => intro l' i h; simp at h
  | cons a t ih =>
    intro l' i h
    cases i with
    | zero => simp [List.getD]
    | succ j =>
      simp only [List.cons_append, List.getD, List.getElem?_cons_succ]
      exact ih l' j (by simpa using h)

theorem getD_append_len {α : Type} (d v : α) :
    ∀ (l : List α), (l ++ [v]).getD l.length d = v := by
  intro l
  induction l with
  | nil => simp [List.getD]
  | cons a t ih =>
    simp only [List.cons_append, List.length_cons, List.getD, List.getElem?_cons_succ]
    exact ih

theorem getD_mem {α : Type} (d : α) :
    ∀ (l : List α) (i : Nat), i < l.length → l.getD i d ∈ l := by
  intro l
  induction l with
  | nil => intro i h; simp at h
  | cons a t ih =>
    intro i h
    cases i with
    | zero => simp [List.getD]
    | succ j =>
      simp only [List.getD, List.getElem?_cons_succ]
      exact List.mem_cons_of_mem a (ih j (by simpa using h))

theorem mod_mod (a n : Nat) : a % n % n = a % n :=
  Nat.mod_mod_of_dvd a dvd_rfl

theorem add_mod_ne (p k n : Nat) (hk : 0 < k) (hkn : k < n) :
    (p + k) % n ≠ p % n := by
  intro h
  have hn : 0 < n := lt_trans hk hkn
  have hp : p % n < n := Nat.mod_lt _ hn
  have hkk : k % n = k := Nat.mod_eq_of_lt hkn
  rw [Nat.add_mod, hkk] at h
  rcases Nat.lt_or_ge (p % n + k) n with hlt | hge
  · rw [Nat.mod_eq_of_lt hlt] at h; omega
  · rw [Nat.mod_eq_sub_mod hge, Nat.mod_eq_of_lt (by omega)] at h; omega

theorem ring_index_surj (ptr k n : Nat) (hn : 0 < n) (hk : k < n) :
    (ptr + (k + n - ptr % n) % n) % n = k := by
  have ha : ptr % n < n := Nat.mod_lt _ hn
  have hsum : ptr % n + (k + n - ptr % n) = k + n := by omega
  have h := (Nat.mod_modEq ptr n).symm.add (Nat.mod_modEq (k + n - ptr % n) n)
  unfold Nat.ModEq at h
  rw [h, hsum, Nat.add_mod_right, Nat.mod_eq_of_lt hk]

/-! ### RateMonitor: how one push rewrites the state -/

theorem pushAll_cons (m : RateMonitor) (p : Int × Int) (ps : List (Int × Int)) :
    pushAll m (p :: ps) = pushAll (m.PushSample p.1 p.2) ps := rfl

theorem pushSample_append (m : RateMonitor) (s t : Int)
    (h : m.filled = false ∧ m.getSamplesDuration < m.samplingSize * 2) :
    (m.PushSample s t).samples = m.samples ++ [s] ∧
    (m.PushSample s t).timestamps = m.timestamps ++ [t] ∧
    (m.PushSample s t).samplesPtr = m.samplesPtr + 1 ∧
    (m.PushSample s t).samplingSize = m.samplingSize := by
  simp only [RateMonitor.PushSample, if_pos h]
  split <;> exact ⟨rfl, rfl, rfl, rfl⟩

theorem pushSample_overwrite (m : RateMonitor) (s t : Int)
    (h : ¬(m.filled = false ∧ m.getSamplesDuration < m.samplingSize * 2)) :
    m.PushSample s t =
      { m with samples := m.samples.set (m.samplesPtr % m.samples.length) s
               timestamps := m.timestamps.set (m.samplesPtr % m.timestamps.length) t
               samplesPtr := m.samplesPtr + 1 } := by
  unfold RateMonitor.PushSample
  rw [if_neg h]

theorem pushSample_append_filled_iff (m : RateMonitor) (s t : Int)
    (h : m.filled = false ∧ m.getSamplesDuration < m.samplingSize * 2) :
    ((m.PushSample s t).filled = true ↔
      m.samplingSize * 2 ≤ (m.PushSample s t).getSamplesDuration) := by
  simp only [RateMonitor.PushSample, if_pos h]
  split
  · rename_i hd; simpa using hd
  · rename_i hd; simpa [h.1] using hd

theorem pushSample_filled_mono (m : RateMonitor) (s t : Int) (h : m.filled = true) :
    (m.PushSample s t).filled = true := by
  rw [pushSample_overwrite m s t (by simp [h])]
  exact h

theorem pushAll_filled_mono (ps : List (Int × Int)) :
    ∀ m : RateMonitor, m.filled = true → (pushAll m ps).filled = true := by
  induction ps with
  | nil => intro m h; exact h
  | cons p rest ih =>
    intro m h
    simp only [pushAll, List.foldl_cons]
    exact ih (m.PushSample p.1 p.2) (pushSample_filled_mono m p.1 p.2 h)

theorem pushSample_length_eq (m : RateMonitor) (s t : Int)
    (h : m.samples.length = m.timestamps.length) :
    (m.PushSample s t).samples.length = (m.PushSample s t).timestamps.length := by
  by_cases hc : m.filled = false ∧ m.getSamplesDuration < m.samplingSize * 2
  · obtain ⟨h1, h2, -, -⟩ := pushSample_append m s t hc
    rw [h1, h2]; simp [h]
  · rw [pushSample_overwrite m s t hc]; simp [h]

theorem pushAll_length_eq (ps : List (Int × Int)) :
    ∀ m : RateMonitor, m.samples.length = m.timestamps.length →
      (pushAll m ps).samples.length = (pushAll m ps).timestamps.length := by
  induction ps with
  | nil => intro m h; exact h
  | cons p rest ih =>
    intro m h
    simp only [pushAll, List.foldl_cons]
    exact ih (m.PushSample p.1 p.2) (pushSample_length_eq m p.1 p.2 h)

theorem pushAll_filled_length (qs : List (Int × Int)) :
    ∀ m : RateMonitor, m.filled = true →
      (pushAll m qs).filled = true ∧
      (pushAll m qs).samples.length = m.samples.length ∧
      (pushAll m qs).timestamps.length = m.timestamps.length := by
  induction qs with
  | nil => intro m h; exact ⟨h, rfl, rfl⟩
  | cons p rest ih =>
    intro m h
    rw [pushAll_cons]
    have hstep := pushSample_overwrite m p.1 p.2 (by simp [h])
    obtain ⟨hf, hs, ht⟩ := ih (m.PushSample p.1 p.2) (pushSample_filled_mono m p.1 p.2 h)
    refine ⟨hf, ?_, ?_⟩
    · rw [hs, hstep]; simp
    · rw [ht, hstep]; simp

theorem pushSample_timestamps_subset (m : RateMonitor) (s t x : Int)
    (hx : x ∈ (m.PushSample s t).timestamps) : x ∈ m.timestamps ∨ x = t := by
  by_cases hc : m.filled = false ∧ m.getSamplesDuration < m.samplingSize * 2
  · rw [(pushSample_append m s t hc).2.1] at hx
    rcases List.mem_append.mp hx with h | h
    · exact Or.inl h
    · exact Or.inr (List.mem_singleton.mp h)
  · rw [pushSample_overwrite m s t hc] at hx
    exact List.mem_or_eq_of_mem_set hx

theorem pushSample_samples_subset (m : RateMonitor) (s t x : Int)
    (hx : x ∈ (m.PushSample s t).samples) : x ∈ m.samples ∨ x = s := by
  by_cases hc : m.filled = false ∧ m.getSamplesDuration < m.samplingSize * 2
  · rw [(pushSample_append m s t hc).1] at hx
    rcases List.mem_append.mp hx with h | h
    · exact Or.inl h
    · exact Or.inr (List.mem_singleton.mp h)
  · rw [pushSample_overwrite m s t hc] at hx
    exact List.mem_or_eq_of_mem_set hx

theorem pushAll_timestamps_subset (ps : List (Int × Int)) :
    ∀ (m : RateMonitor) (x : Int), x ∈ (pushAll m ps).timestamps →
      x ∈ m.timestamps ∨ x ∈ ps.map Prod.snd := by
  induction ps with
  | nil => intro m x hx; exact Or.inl hx
  | cons p rest ih =>
    intro m x hx
    simp only [pushAll, List.foldl_cons] at hx
    rcases ih (m.PushSample p.1 p.2) x hx with h | h
    · rcases pushSample_timestamps_subset m p.1 p.2 x h with h' | h'
      · exact Or.inl h'
      · exact Or.inr (by simp [h'])
    · exact Or.inr (by simp [List.mem_cons, h])

theorem pushAll_samples_subset (ps : List (Int × Int)) :
    ∀ (m : RateMonitor) (x : Int), x ∈ (pushAll m ps).samples →
      x ∈ m.samples ∨ x ∈ ps.map Prod.fst := by
  induction ps with
  | nil => intro m x hx; exact Or.inl hx
  | cons p rest ih =>
    intro m x hx
    simp only [pushAll, List.foldl_cons] at hx
    rcases ih (m.PushSample p.1 p.2) x hx with h | h
    · rcases pushSample_samples_subset m p.1 p.2 x h with h' | h'
      · exact Or.inl h'
      · exact Or.inr (by simp [h'])
    · exact Or.inr (by simp [List.mem_cons, h])

/-! ### RateMonitor: GetRate -/

theorem round_nonneg_rat (q : ℚ) (h : 0 ≤ q) : 0 ≤ round q := by
  rw [round_eq]
  exact Int.le_floor.mpr (by push_cast; linarith)

theorem rateOf_zero_dur (b : Int) : rateOf b 0 = 0 := by
  unfold rateOf; simp

theorem rateOf_nonneg (b d : Int) (hb : 0 ≤ b) (hd : 0 ≤ d) : 0 ≤ rateOf b d := by
  unfold rateOf
  split
  · exact le_refl 0
  · rename_i hne
    have hd' : (0 : ℚ) < ((d : Int) : ℚ) := by
      have : 0 < d := lt_of_le_of_ne hd (Ne.symm hne)
      exact_mod_cast this
    have hnum : (0 : ℚ) ≤ ((b * 8 * 1000000000 : Int) : ℚ) := by
      have : (0 : Int) ≤ b * 8 * 1000000000 := by positivity
      exact_mod_cast this
    exact round_nonneg_rat _ (div_nonneg hnum (le_of_lt hd'))

theorem GetRate_unfilled (m : RateMonitor) (now : Int) (h : m.filled = false) :
    m.GetRate now = (-1, 0) := by
  unfold RateMonitor.GetRate
  rw [if_pos h]

theorem GetRate_filled_shape (m : RateMonitor) (now : Int) (h : m.filled = true) :
    m.GetRate now =
      (rateOf (m.getRateLoop now m.samples.length 0 0).1
          (m.getRateLoop now m.samples.length 0 0).2,
        (m.getRateLoop now m.samples.length 0 0).2) := by
  unfold RateMonitor.GetRate
  rw [if_neg (by simp [h])]

theorem GetRate_fst_filled (m : RateMonitor) (now : Int) (h : m.filled = true) :
    (m.GetRate now).1 =
      rateOf (m.getRateLoop now m.samples.length 0 0).1
        (m.getRateLoop now m.samples.length 0 0).2 := by
  rw [GetRate_filled_shape m now h]

theorem GetRate_ne_sentinel (m : RateMonitor) (now : Int) (h : m.filled = true) :
    m.GetRate now ≠ (-1, 0) := by
  rw [GetRate_filled_shape m now h]
  intro hc
  rw [Prod.mk.injEq] at hc
  obtain ⟨h1, h2⟩ := hc
  rw [h2, rateOf_zero_dur] at h1
  norm_num at h1

theorem getRateLoop_nonneg (m : RateMonitor) (now : Int)
    (hlen : m.samples.length = m.timestamps.length)
    (hts : ∀ x ∈ m.timestamps, x ≤ now)
    (hsz : ∀ x ∈ m.samples, 0 ≤ x) :
    ∀ r : Nat, r ≤ m.samples.length → ∀ b d : Int, 0 ≤ b → 0 ≤ d →
      0 ≤ (m.getRateLoop now r b d).1 ∧ 0 ≤ (m.getRateLoop now r b d).2 := by
  intro r
  induction r with
  | zero => intro _ b d hb hd; exact ⟨hb, hd⟩
  | succ r ih =>
    intro hr b d hb hd
    have hn : 0 < m.timestamps.length := by omega
    have hns : 0 < m.samples.length := by omega
    have hdur : 0 ≤ now - m.timestamps.getD
        ((m.samplesPtr - 1 - (m.samples.length - (r + 1))) % m.timestamps.length) 0 := by
      have hmem := getD_mem 0 m.timestamps
        ((m.samplesPtr - 1 - (m.samples.length - (r + 1))) % m.timestamps.length)
        (Nat.mod_lt _ hn)
      have := hts _ hmem
      omega
    have hbytes : 0 ≤ b + m.samples.getD
        ((m.samplesPtr - 1 - (m.samples.length - (r + 1))) % m.samples.length) 0 := by
      have hmem := getD_mem 0 m.samples
        ((m.samplesPtr - 1 - (m.samples.length - (r + 1))) % m.samples.length)
        (Nat.mod_lt _ hns)
      have := hsz _ hmem
      omega
    rw [RateMonitor.getRateLoop]
    split
    · exact ⟨hbytes, hdur⟩
    · exact ih (by omega) _ _ hbytes hdur

/-! ### Claims C1 and C2 -/

/-- **C1** — counterexample.  The claim "once pushes spanning at least 2·W of
wall-clock time have occurred, every subsequent GetRate returns a rate ≠ -1
and a covered span satisfying W ≤ span ≤ 2·W" is false: with W = 10 (ns),
pushes at times 0, 20, 20 span 2·W (the monitor is filled), yet the very next
`GetRate`, at time 20, covers a span of 0 < W — the third push overwrote the
oldest sample, shrinking the stored window to a burst. -/
theorem C1_counterexample :
    NewRateMonitor 10 = some (RateMonitor.init 10) ∧
    (pushAll (RateMonitor.init 10) [(1, 0), (1, 20), (1, 20)]).filled = true ∧
    ((pushAll (RateMonitor.init 10) [(1, 0), (1, 20), (1, 20)]).GetRate 20).1 ≠ -1 ∧
    ¬(10 ≤ ((pushAll (RateMonitor.init 10) [(1, 0), (1, 20), (1, 20)]).GetRate 20).2) := by
  decide

/-- **C1** (amended): for a monitor built by `NewRateMonitor` and fed pushes
of nonnegative sizes, once it is filled — which happens exactly when the
pushes span at least 2·W, see C2 — every subsequent `GetRate`, queried at any
time `now` not before the pushes, returns a rate different from -1.  The span
bounds `W ≤ span ≤ 2·W` of the original claim do not hold
(`C1_counterexample`). -/
theorem C1_filled_rate_ne_neg_one (W : Int) (m0 : RateMonitor)
    (hnew : NewRateMonitor W = some m0) (ps : List (Int × Int))
    (hsz : ∀ p ∈ ps, 0 ≤ p.1) (now : Int) (hnow : ∀ p ∈ ps, p.2 ≤ now)
    (hfill : (pushAll m0 ps).filled = true) :
    ((pushAll m0 ps).GetRate now).1 ≠ -1 := by
  unfold NewRateMonitor at hnew
  split at hnew
  · exact absurd hnew (by simp)
  · rename_i hW
    obtain rfl : RateMonitor.init W = m0 := by injection hnew
    have hlen : (pushAll (RateMonitor.init W) ps).samples.length =
        (pushAll (RateMonitor.init W) ps).timestamps.length :=
      pushAll_length_eq ps (RateMonitor.init W) rfl
    have hts : ∀ x ∈ (pushAll (RateMonitor.init W) ps).timestamps, x ≤ now := by
      intro x hx
      rcases pushAll_timestamps_subset ps _ x hx with h | h
      · exact absurd h (by simp [RateMonitor.init])
      · obtain ⟨p, hp, hpx⟩ := List.mem_map.mp h
        exact hpx ▸ hnow p hp
    have hsz' : ∀ x ∈ (pushAll (RateMonitor.init W) ps).samples, 0 ≤ x := by
      intro x hx
      rcases pushAll_samples_subset ps _ x hx with h | h
      · exact absurd h (by simp [RateMonitor.init])
      · obtain ⟨p, hp, hpx⟩ := List.mem_map.mp h
        exact hpx ▸ hsz p hp
    have hloop := getRateLoop_nonneg _ now hlen hts hsz'
      (pushAll (RateMonitor.init W) ps).samples.length le_rfl 0 0 le_rfl le_rfl
    rw [GetRate_fst_filled _ now hfill]
    have hrate := rateOf_nonneg _ _ hloop.1 hloop.2
    omega

/-- Witness for `C1_filled_rate_ne_neg_one`: W = 10 with the pushes of the
counterexample, queried at time 20. -/
theorem C1_filled_rate_ne_neg_one_witness :
    NewRateMonitor 10 = some (RateMonitor.init 10) ∧
    ((pushAll (RateMonitor.init 10) [(1, 0), (1, 20), (1, 20)]).GetRate 20).1 ≠ -1 :=
  ⟨by decide,
    C1_filled_rate_ne_neg_one 10 (RateMonitor.init 10) (by decide)
      [(1, 0), (1, 20), (1, 20)] (by decide) 20 (by decide) (by decide)⟩

/-- **C2**: `GetRate` returns (-1, 0) if and only if the monitor is not yet
filled; an unfilled monitor becomes filled by a push exactly when the stored
samples' span first reaches 2·W; in particular after exactly one push into a
freshly-constructed monitor `GetRate` returns (-1, 0). -/
theorem C2_sentinel_iff_unfilled :
    (∀ (m : RateMonitor) (now : Int), m.GetRate now = (-1, 0) ↔ m.filled = false) ∧
    (∀ (m : RateMonitor) (size t : Int),
      m.filled = false → m.getSamplesDuration < m.samplingSize * 2 →
      ((m.PushSample size t).filled = true ↔
        m.samplingSize * 2 ≤ (m.PushSample size t).getSamplesDuration)) ∧
    (∀ (W : Int) (m0 : RateMonitor), NewRateMonitor W = some m0 →
      ∀ (size t now : Int), (m0.PushSample size t).GetRate now = (-1, 0)) := by
  refine ⟨?_, ?_, ?_⟩
  · intro m now
    constructor
    · intro h
      cases hb : m.filled with
      | false => rfl
      | true => exact absurd h (GetRate_ne_sentinel m now hb)
    · intro h
      exact GetRate_unfilled m now h
  · intro m size t hf hd
    exact pushSample_append_filled_iff m size t ⟨hf, hd⟩
  · intro W m0 hnew size t now
    unfold NewRateMonitor at hnew
    split at hnew
    · exact absurd hnew (by simp)
    · rename_i hW
      obtain rfl : RateMonitor.init W = m0 := by injection hnew
      have hcond : (RateMonitor.init W).filled = false ∧
          (RateMonitor.init W).getSamplesDuration <
            (RateMonitor.init W).samplingSize * 2 := by
        refine ⟨rfl, ?_⟩
        show (RateMonitor.init W).getSamplesDuration < W * 2
        rw [show (RateMonitor.init W).getSamplesDuration = 0 from rfl]
        omega
      have hdur : ((RateMonitor.init W).PushSample size t).getSamplesDuration = 0 := by
        obtain ⟨-, h2, h3, -⟩ := pushSample_append (RateMonitor.init W) size t hcond
        unfold RateMonitor.getSamplesDuration
        rw [h2, h3]
        simp [RateMonitor.init]
      apply GetRate_unfilled
      cases hfb : ((RateMonitor.init W).PushSample size t).filled with
      | false => rfl
      | true =>
        exfalso
        have h2w := (pushSample_append_filled_iff (RateMonitor.init W) size t hcond).mp hfb
        rw [hdur] at h2w
        have : (RateMonitor.init W).samplingSize = W := rfl
        rw [this] at h2w
        omega

/-- Witness for `C2_sentinel_iff_unfilled`: one push of 100 bytes at time 0
into a fresh monitor with W = 10 yields `(-1, 0)` at query time 5. -/
theorem C2_sentinel_iff_unfilled_witness :
    ((RateMonitor.init 10).PushSample 100 0).GetRate 5 = (-1, 0) :=
  C2_sentinel_iff_unfilled.2.2 10 (RateMonitor.init 10) (by decide) 100 0 5

/-! ### Claim C3: the ring-buffer invariant -/

theorem pushSample_overwrite_fields (m : RateMonitor) (s t : Int)
    (h : ¬(m.filled = false ∧ m.getSamplesDuration < m.samplingSize * 2)) :
    (m.PushSample s t).samples = m.samples.set (m.samplesPtr % m.samples.length) s ∧
    (m.PushSample s t).timestamps =
      m.timestamps.set (m.samplesPtr % m.timestamps.length) t ∧
    (m.PushSample s t).samplesPtr = m.samplesPtr + 1 ∧
    (m.PushSample s t).samplingSize = m.samplingSize ∧
    (m.PushSample s t).filled = m.filled := by
  rw [pushSample_overwrite m s t h]
  exact ⟨rfl, rfl, rfl, rfl, rfl⟩

theorem RMInv_init (W lastT : Int) (hW : 0 < W) :
    RMInv (RateMonitor.init W) lastT := by
  refine ⟨rfl, le_rfl, ?_, ?_, ?_⟩
  · intro _
    refine ⟨rfl, ?_⟩
    rw [show (RateMonitor.init W).getSamplesDuration = 0 from rfl]
    show (0 : Int) < W * 2
    omega
  · intro i hi
    exact absurd hi (by simp [RateMonitor.init])
  · intro h
    exact absurd h (by simp [RateMonitor.init])

theorem RMInv_push (m : RateMonitor) (lastT s t : Int) (inv : RMInv m lastT)
    (hle : lastT ≤ t) : RMInv (m.PushSample s t) t := by
  by_cases hc : m.filled = false ∧ m.getSamplesDuration < m.samplingSize * 2
  · -- append branch; the cursor equals the length (unfilled state)
    obtain ⟨hA1, hA2, hA3, hA4⟩ := pushSample_append m s t hc
    obtain ⟨hpn, -⟩ := inv.hunf hc.1
    have hlen' := inv.hlen
    refine ⟨?_, ?_, ?_, ?_, ?_⟩
    · rw [hA1, hA2]
      simp [hlen']
    · rw [hA2, hA3]
      simp
      omega
    · intro hf
      refine ⟨?_, ?_⟩
      · rw [hA3, hA2]
        simp
        omega
      · have hiff := pushSample_append_filled_iff m s t hc
        rw [hA4]
        by_contra hge
        push_neg at hge
        have := hiff.mpr hge
        rw [this] at hf
        cases hf
    · intro i hi
      rw [hA2] at hi ⊢
      rw [hA3, hpn]
      set n := m.timestamps.length with hn
      have hlen2 : (m.timestamps ++ [t]).length = n + 1 := by simp
      rw [hlen2] at hi ⊢
      have hi' : i < n + 1 := by omega
      have e1 : (n + 1 + i) % (n + 1) = i := by
        rw [Nat.add_mod_left, Nat.mod_eq_of_lt hi']
      have e2 : (n + 1 + i + 1) % (n + 1) = i + 1 := by
        rw [show n + 1 + i + 1 = (n + 1) + (i + 1) by omega,
          Nat.add_mod_left, Nat.mod_eq_of_lt (by omega)]
      rw [e1, e2]
      by_cases hmid : i + 1 < n
      · rw [getD_append_lt 0 m.timestamps [t] i (by omega),
          getD_append_lt 0 m.timestamps [t] (i + 1) (by omega)]
        have hr := inv.hring i (by omega)
        rw [hpn] at hr
        have f1 : (n + i) % n = i := by
          rw [Nat.add_mod_left, Nat.mod_eq_of_lt (by omega)]
        have f2 : (n + i + 1) % n = i + 1 := by
          rw [show n + i + 1 = n + (i + 1) by omega,
            Nat.add_mod_left, Nat.mod_eq_of_lt (by omega)]
        rwa [f1, f2] at hr
      · have hieq : i + 1 = n := by omega
        have h0n : 0 < n := by omega
        rw [hieq, getD_append_len 0 t m.timestamps]
        rw [getD_append_lt 0 m.timestamps [t] i (by omega)]
        have hlastv := inv.hlast h0n
        rw [hpn] at hlastv
        rw [show (n - 1) % n = i by rw [Nat.mod_eq_of_lt (by omega)]; omega] at hlastv
        rw [hlastv]
        exact hle
    · intro h0
      rw [hA2, hA3, hpn]
      set n := m.timestamps.length with hn
      have : (n + 1 - 1) % (m.timestamps ++ [t]).length = n := by
        simp
      rw [this]
      exact getD_append_len 0 t m.timestamps
  · -- overwrite branch; the monitor is filled (the invariant rules out an
    -- unfilled state with span ≥ 2·W)
    have hf : m.filled = true := by
      cases hfb : m.filled with
      | true => rfl
      | false => exact absurd ⟨hfb, (inv.hunf hfb).2⟩ hc
    obtain ⟨hO1, hO2, hO3, hO4, hO5⟩ := pushSample_overwrite_fields m s t hc
    set n := m.timestamps.length with hn
    set ptr := m.samplesPtr with hptrdef
    have hptrn : n ≤ ptr := inv.hptr
    refine ⟨?_, ?_, ?_, ?_, ?_⟩
    · rw [hO1, hO2]
      simp [inv.hlen]
    · rw [hO2, hO3]
      simp
      omega
    · intro hfb
      rw [hO5] at hfb
      rw [hf] at hfb
      cases hfb
    · intro i hi
      rw [hO2] at hi ⊢
      rw [hO3]
      simp only [List.length_set] at hi ⊢
      have h0n : 0 < n := by omega
      by_cases hmid : i + 2 < n
      · have hne1 : ptr % n ≠ (ptr + 1 + i) % n := by
          have := add_mod_ne ptr (1 + i) n (by omega) (by omega)
          rw [show ptr + (1 + i) = ptr + 1 + i by omega] at this
          exact this.symm
        have hne2 : ptr % n ≠ (ptr + 1 + i + 1) % n := by
          have := add_mod_ne ptr (i + 2) n (by omega) (by omega)
          rw [show ptr + (i + 2) = ptr + 1 + i + 1 by omega] at this
          exact this.symm
        rw [getD_set_ne 0 t m.timestamps _ _ hne1,
          getD_set_ne 0 t m.timestamps _ _ hne2]
        have hr := inv.hring (i + 1) (by omega)
        rw [show ptr + (i + 1) = ptr + 1 + i by omega] at hr
        rw [show ptr + 1 + i + 1 = ptr + 1 + i + 1 by omega] at hr
        exact hr
      · have hieq : i + 2 = n := by omega
        have e2 : (ptr + 1 + i + 1) % n = ptr % n := by
          rw [show ptr + 1 + i + 1 = ptr + n by omega, Nat.add_mod_right]
        have e1 : (ptr + 1 + i) % n = (ptr - 1) % n := by
          rw [show ptr + 1 + i = (ptr - 1) + n by omega, Nat.add_mod_right]
        rw [e1, e2]
        have hne : ptr % n ≠ (ptr - 1) % n := by
          have := add_mod_ne (ptr - 1) 1 n (by omega) (by omega)
          rw [show ptr - 1 + 1 = ptr by omega] at this
          exact this
        rw [getD_set_ne 0 t m.timestamps _ _ hne,
          getD_set_self 0 t m.timestamps _ (Nat.mod_lt _ h0n)]
        rw [inv.hlast h0n]
        exact hle
    · intro h0
      rw [hO2] at h0 ⊢
      rw [hO3]
      simp only [List.length_set] at h0 ⊢
      rw [show ptr + 1 - 1 = ptr by omega]
      exact getD_set_self 0 t m.timestamps _ (Nat.mod_lt _ (by omega))

theorem chain'_headD_cons (l : List Int) (hl : List.Chain' (· ≤ ·) l) :
    List.Chain' (· ≤ ·) (l.headD 0 :: l) := by
  cases l with
  | nil => simp
  | cons a rest => exact List.chain'_cons.mpr ⟨le_rfl, hl⟩

theorem RMInv_pushAll (ps : List (Int × Int)) :
    ∀ (m : RateMonitor) (lastT : Int), RMInv m lastT →
      List.Chain' (· ≤ ·) (lastT :: ps.map Prod.snd) →
      ∃ lastT', RMInv (pushAll m ps) lastT' := by
  induction ps with
  | nil => intro m lastT inv _; exact ⟨lastT, inv⟩
  | cons p rest ih =>
    intro m lastT inv hchain
    rw [pushAll_cons]
    simp only [List.map_cons, List.chain'_cons] at hchain
    exact ih (m.PushSample p.1 p.2) p.2
      (RMInv_push m lastT p.1 p.2 inv hchain.1) hchain.2

theorem ring_chain_mono (ts : List Int) (ptr n : Nat)
    (hring : ∀ i, i + 1 < n →
      ts.getD ((ptr + i) % n) 0 ≤ ts.getD ((ptr + i + 1) % n) 0) :
    ∀ j, j < n → ∀ i, i ≤ j →
      ts.getD ((ptr + i) % n) 0 ≤ ts.getD ((ptr + j) % n) 0 := by
  intro j
  induction j with
  | zero =>
    intro _ i hi
    have : i = 0 := Nat.le_zero.mp hi
    subst this
    exact le_rfl
  | succ j ih =>
    intro hj i hi
    rcases Nat.lt_or_ge i (j + 1) with hlt | hge
    · exact le_trans (ih (by omega) i (by omega)) (hring j (by omega))
    · have : i = j + 1 := by omega
      subst this
      exact le_rfl

/-- **C3**: for every monitor reached from `NewRateMonitor` by pushes with
non-decreasing clock readings: (1) once filled, the stored sample count never
changes under any further pushes (and the monitor stays filled); (2) every
later push overwrites exactly the slot at index `cursor % capacity`; (3) the
timestamp at index `cursor % capacity` is the oldest stored one and the one
at index `(cursor - 1) % capacity` the newest; (4) the stored timestamps are
monotonically non-decreasing in push order (ring order starting at the
cursor). -/
theorem C3_ring_buffer_invariants (W : Int) (m0 : RateMonitor)
    (hnew : NewRateMonitor W = some m0) (ps : List (Int × Int))
    (hchain : List.Chain' (· ≤ ·) (ps.map Prod.snd)) (m : RateMonitor)
    (hm : m = pushAll m0 ps) :
    (m.filled = true → ∀ qs : List (Int × Int),
      (pushAll m qs).filled = true ∧
      (pushAll m qs).samples.length = m.samples.length ∧
      (pushAll m qs).timestamps.length = m.timestamps.length) ∧
    (m.filled = true → ∀ (qs : List (Int × Int)) (s t : Int),
      ((pushAll m qs).PushSample s t).samples =
        (pushAll m qs).samples.set
          ((pushAll m qs).samplesPtr % (pushAll m qs).samples.length) s ∧
      ((pushAll m qs).PushSample s t).timestamps =
        (pushAll m qs).timestamps.set
          ((pushAll m qs).samplesPtr % (pushAll m qs).timestamps.length) t) ∧
    (∀ k, k < m.timestamps.length →
      m.timestamps.getD (m.samplesPtr % m.timestamps.length) 0 ≤
        m.timestamps.getD k 0 ∧
      m.timestamps.getD k 0 ≤
        m.timestamps.getD ((m.samplesPtr - 1) % m.timestamps.length) 0) ∧
    (∀ i, i + 1 < m.timestamps.length →
      m.timestamps.getD ((m.samplesPtr + i) % m.timestamps.length) 0 ≤
        m.timestamps.getD ((m.samplesPtr + i + 1) % m.timestamps.length) 0) := by
  unfold NewRateMonitor at hnew
  split at hnew
  · exact absurd hnew (by simp)
  · rename_i hW0
    obtain rfl : RateMonitor.init W = m0 := by injection hnew
    have hW : 0 < W := by omega
    obtain ⟨L, inv⟩ := RMInv_pushAll ps (RateMonitor.init W)
      ((ps.map Prod.snd).headD 0) (RMInv_init W _ hW) (chain'_headD_cons _ hchain)
    rw [← hm] at inv
    refine ⟨?_, ?_, ?_, inv.hring⟩
    · intro hf qs
      exact pushAll_filled_length qs m hf
    · intro hf qs s t
      have hf' := (pushAll_filled_length qs m hf).1
      obtain ⟨h1, h2, -, -, -⟩ :=
        pushSample_overwrite_fields (pushAll m qs) s t (by simp [hf'])
      exact ⟨h1, h2⟩
    · intro k hk
      have h0n : 0 < m.timestamps.length := by omega
      have hptr := inv.hptr
      set n := m.timestamps.length with hn
      set ptr := m.samplesPtr with hptrdef
      have hi : (k + n - ptr % n) % n < n := Nat.mod_lt _ h0n
      have hsurj : (ptr + (k + n - ptr % n) % n) % n = k :=
        ring_index_surj ptr k n h0n hk
      have mono := ring_chain_mono m.timestamps ptr n inv.hring
      constructor
      · have := mono ((k + n - ptr % n) % n) hi 0 (Nat.zero_le _)
        rw [Nat.add_zero, hsurj] at this
        exact this
      · have := mono (n - 1) (by omega) ((k + n - ptr % n) % n) (by omega)
        rw [hsurj] at this
        rw [show (ptr + (n - 1)) % n = (ptr - 1) % n by
          rw [show ptr + (n - 1) = (ptr - 1) + n by omega, Nat.add_mod_right]] at this
        exact this

/-- Witness for `C3_ring_buffer_invariants` on the concrete filled monitor
(W = 10, pushes at times 0, 20, 20): the timestamp at the cursor slot is the
oldest (index 0 checked). -/
theorem C3_ring_buffer_invariants_witness :
    List.Chain' (· ≤ ·) ([((1 : Int), (0 : Int)), (1, 20), (1, 20)].map Prod.snd) ∧
    (pushAll (RateMonitor.init 10) [(1, 0), (1, 20), (1, 20)]).timestamps.getD
        ((pushAll (RateMonitor.init 10) [(1, 0), (1, 20), (1, 20)]).samplesPtr %
          (pushAll (RateMonitor.init 10) [(1, 0), (1, 20), (1, 20)]).timestamps.length) 0 ≤
      (pushAll (RateMonitor.init 10) [(1, 0), (1, 20), (1, 20)]).timestamps.getD 0 0 :=
  ⟨by norm_num [List.chain'_cons],
    ((C3_ring_buffer_invariants 10 (RateMonitor.init 10) (by decide)
      [(1, 0), (1, 20), (1, 20)] (by norm_num [List.chain'_cons]) _ rfl).2.2.1 0
      (by decide)).1⟩

/-! ### Claims C6 and C7: the authentication service -/

/-- **C6**: on a fresh store, if `Register(id)` succeeds returning key `k`
(and storing `st'`), then `Authenticate(id, k)` succeeds; `Authenticate(id,
k')` fails with the compare error for every `k' ≠ k` (given a collision-free
hash); and after `Unregister(id)` succeeds, `Authenticate(id, k)` fails with
the wrapped `ErrNotFound`. -/
theorem C6_register_authenticate_roundtrip (hashKey : String → String)
    (hinj : Function.Injective hashKey) (id k : String) (st' : KVStore)
    (hreg : register hashKey [] id k = (.ok k, st')) :
    authenticate hashKey st' id k = .ok () ∧
    (∀ k', k' ≠ k → authenticate hashKey st' id k' = .error .compareFailed) ∧
    (unregister st' id).1 = .ok () ∧
    authenticate hashKey (unregister st' id).2 id k =
      .error (.wrappedStore .notFound) := by
  by_cases hid : id = ""
  · exfalso
    rw [hid] at hreg
    simp [register, storeGet] at hreg
  · have hst : st' = [(id, hashKey k)] := by
      simp [register, storeGet, storeSet, alookup, aremove, hid] at hreg
      exact hreg.symm
    subst hst
    refine ⟨?_, ?_, ?_, ?_⟩
    · simp [authenticate, storeGet, alookup, hid, compareKeyHash]
    · intro k' hk'
      have hne : hashKey k ≠ hashKey k' := fun h => hk' (hinj h).symm
      simp [authenticate, storeGet, alookup, hid, compareKeyHash, hne]
    · simp [unregister, storeGet, storeDelete, alookup, aremove, hid]
    · simp [unregister, storeGet, storeDelete, alookup, aremove, hid, authenticate]

/-- Witness for `C6_register_authenticate_roundtrip`: identity hash,
id "srvA", key "k0". -/
theorem C6_register_authenticate_roundtrip_witness :
    register (fun s => s) [] "srvA" "k0" = (.ok "k0", [("srvA", "k0")]) ∧
    authenticate (fun s => s) [("srvA", "k0")] "srvA" "k0" = .ok () :=
  ⟨rfl,
    (C6_register_authenticate_roundtrip (fun s => s) (fun _ _ h => h) "srvA" "k0"
      [("srvA", "k0")] rfl).1⟩

/-- **C7**: `Register(id)` for an id already present in the store returns the
"already registered" error and leaves the store's contents unchanged — the
stored hash is not overwritten and no entry is created. -/
theorem C7_reregister_fails (hashKey : String → String) (st : KVStore)
    (id freshKey h0 : String) (hpresent : storeGet st id = .ok h0) :
    register hashKey st id freshKey = (.error .alreadyRegistered, st) := by
  unfold register
  rw [hpresent]

/-- Witness for `C7_reregister_fails`: "srvA" already bound to hash "h0". -/
theorem C7_reregister_fails_witness :
    storeGet [("srvA", "h0")] "srvA" = .ok "h0" ∧
    register (fun s => s) [("srvA", "h0")] "srvA" "k1" =
      (.error .alreadyRegistered, [("srvA", "h0")]) :=
  ⟨rfl, C7_reregister_fails (fun s => s) [("srvA", "h0")] "srvA" "k1" "h0" rfl⟩

/-! ### Claims C5, C8, C9, C10: the message pump -/

theorem alookup_cons {α : Type} (p : String × α) (rest : List (String × α))
    (key : String) :
    alookup (p :: rest) key = if key = p.1 then some p.2 else alookup rest key := rfl

theorem alookup_aupdate_self {α : Type} :
    ∀ (l : List (String × α)) (k : String) (v w : α), alookup l k = some w →
      alookup (aupdate l k v) k = some v := by
  intro l
  induction l with
  | nil => intro k v w h; simp [alookup] at h
  | cons p rest ih =>
    intro k v w h
    by_cases hk : k = p.1
    · simp [aupdate, alookup_cons, hk]
    · rw [alookup_cons, if_neg hk] at h
      have hp : ¬(p.1 = k) := fun hh => hk hh.symm
      simp only [aupdate, List.map_cons, if_neg hp]
      rw [alookup_cons, if_neg hk]
      exact ih k v w h

theorem alookup_aupdate_ne {α : Type} :
    ∀ (l : List (String × α)) (k k' : String) (v : α), k' ≠ k →
      alookup (aupdate l k v) k' = alookup l k' := by
  intro l
  induction l with
  | nil => intro k k' v _; rfl
  | cons p rest ih =>
    intro k k' v hne
    by_cases hp : p.1 = k
    · simp only [aupdate, List.map_cons, if_pos hp]
      rw [alookup_cons, alookup_cons, if_neg hne]
      rw [if_neg (hp ▸ hne)]
      exact ih k k' v hne
    · simp only [aupdate, List.map_cons, if_neg hp]
      rw [alookup_cons, alookup_cons]
      by_cases hk' : k' = p.1
      · rw [if_pos hk', if_pos hk']
      · rw [if_neg hk', if_neg hk']
        exact ih k k' v hne

/-- **C5**: an inbound SDP offer dispatched to a session whose `makingOffer`
flag is set or whose peer connection is not in the Stable signaling state is
ignored: the server state (all groups, calls, sessions and their channels) is
returned unchanged, no log is emitted, no answer is produced, and the pump
continues with the next message. -/
theorem C5_offer_collision_ignored (srv : ServerState) (msg : Message)
    (cfg : SessionConfig) (g : GroupState) (c : CallState) (sess : RTCSession)
    (pc : PeerConn) (desc : SessionDescription)
    (hv : msg.isValid = true)
    (hmt : msg.mtype = MessageType.sdp)
    (hdata : msg.data = MsgData.sdpDoc desc)
    (hoffer : desc.sdpType = SDPType.offer)
    (h1 : alookup srv.sessions msg.sessionID = some cfg)
    (h2 : srv.getGroup cfg.groupID = some g)
    (h3 : g.getCall cfg.callID = some c)
    (h4 : c.getSession cfg.sessionID = some sess)
    (hpc : sess.rtcConn = some pc)
    (hconf : sess.makingOffer = true ∨ pc.signalingState ≠ SignalingState.stable) :
    dispatchMsg srv msg = (srv, [], StepOutcome.cont) := by
  have hconflict : sess.hasSignalingConflict = true := by
    unfold RTCSession.hasSignalingConflict
    rw [hpc]
    rcases hconf with h | h
    · simp [h]
    · simp [h]
  simp [dispatchMsg, hv, h1, h2, h3, h4, hmt, hdata, hoffer, hconflict, unmarshalSDP]

/-- Witness for `C5_offer_collision_ignored`: a one-session server whose
session has `makingOffer = true`. -/
theorem C5_offer_collision_ignored_witness :
    dispatchMsg (exampleServer (exampleSession true [] [] [] "") none)
      { sessionID := "s", groupID := "g", callID := "c", mtype := MessageType.sdp
        data := MsgData.sdpDoc { sdpType := SDPType.offer, sdp := "v=0" } } =
      (exampleServer (exampleSession true [] [] [] "") none, [], StepOutcome.cont) :=
  C5_offer_collision_ignored _ _ exampleCfg
    (exampleGroup (exampleSession true [] [] [] "") none)
    (exampleCall (exampleSession true [] [] [] "") none)
    (exampleSession true [] [] [] "")
    { signalingState := SignalingState.stable }
    { sdpType := SDPType.offer, sdp := "v=0" }
    (by decide) rfl rfl rfl (by decide) (by decide) (by decide) (by decide) rfl
    (Or.inl rfl)

/-- **C8**: every channel write performed by the Server is non-blocking.
`Send` on a full inbound channel returns an error without enqueueing the
message (the state is unchanged); the pump's writes to full per-session
channels — ICE, SDP offer, SDP answer — drop the message with a logged error
and the pump continues.  Each operation is a total function of the state, so
no full channel ever suspends the writer. -/
theorem C8_nonblocking_channel_writes :
    (∀ (srv : ServerState) (msg : Message),
      srv.sendCh.cap ≤ srv.sendCh.buf.length →
      srv.send msg = (srv, some SendErr.channelFull)) ∧
    (∀ (srv : ServerState) (msg : Message) (cfg : SessionConfig) (g : GroupState)
      (c : CallState) (sess : RTCSession),
      msg.isValid = true → msg.mtype = MessageType.ice →
      alookup srv.sessions msg.sessionID = some cfg →
      srv.getGroup cfg.groupID = some g →
      g.getCall cfg.callID = some c →
      c.getSession cfg.sessionID = some sess →
      sess.iceInCh.cap ≤ sess.iceInCh.buf.length →
      dispatchMsg srv msg = (srv, [LogEvent.iceChanFull], StepOutcome.cont)) ∧
    (∀ (srv : ServerState) (msg : Message) (cfg : SessionConfig) (g : GroupState)
      (c : CallState) (sess : RTCSession) (desc : SessionDescription),
      msg.isValid = true → msg.mtype = MessageType.sdp →
      msg.data = MsgData.sdpDoc desc → desc.sdpType = SDPType.offer →
      sess.hasSignalingConflict = false →
      alookup srv.sessions msg.sessionID = some cfg →
      srv.getGroup cfg.groupID = some g →
      g.getCall cfg.callID = some c →
      c.getSession cfg.sessionID = some sess →
      sess.sdpOfferInCh.cap ≤ sess.sdpOfferInCh.buf.length →
      dispatchMsg srv msg = (srv, [LogEvent.sdpChanFull], StepOutcome.cont)) ∧
    (∀ (srv : ServerState) (msg : Message) (cfg : SessionConfig) (g : GroupState)
      (c : CallState) (sess : RTCSession) (desc : SessionDescription),
      msg.isValid = true → msg.mtype = MessageType.sdp →
      msg.data = MsgData.sdpDoc desc → desc.sdpType = SDPType.answer →
      alookup srv.sessions msg.sessionID = some cfg →
      srv.getGroup cfg.groupID = some g →
      g.getCall cfg.callID = some c →
      c.getSession cfg.sessionID = some sess →
      sess.sdpAnswerInCh.cap ≤ sess.sdpAnswerInCh.buf.length →
      dispatchMsg srv msg = (srv, [LogEvent.sdpChanFull], StepOutcome.cont)) := by
  refine ⟨?_, ?_, ?_, ?_⟩
  · intro srv msg hfull
    have hns : ¬(srv.sendCh.buf.length < srv.sendCh.cap) := by omega
    simp [ServerState.send, Chan.trySend, hns]
  · intro srv msg cfg g c sess hv hmt h1 h2 h3 h4 hfull
    have hns : ¬(sess.iceInCh.buf.length < sess.iceInCh.cap) := by omega
    simp [dispatchMsg, hv, h1, h2, h3, h4, hmt, Chan.trySend, hns]
  · intro srv msg cfg g c sess desc hv hmt hdata hoffer hnoconf h1 h2 h3 h4 hfull
    have hns : ¬(sess.sdpOfferInCh.buf.length < sess.sdpOfferInCh.cap) := by omega
    simp [dispatchMsg, hv, h1, h2, h3, h4, hmt, hdata, unmarshalSDP, hoffer,
      hnoconf, Chan.trySend, hns]
  · intro srv msg cfg g c sess desc hv hmt hdata hanswer h1 h2 h3 h4 hfull
    have hns : ¬(sess.sdpAnswerInCh.buf.length < sess.sdpAnswerInCh.cap) := by omega
    simp [dispatchMsg, hv, h1, h2, h3, h4, hmt, hdata, unmarshalSDP, hanswer,
      Chan.trySend, hns]

/-- Witness for `C8_nonblocking_channel_writes`: a full inbound channel
(capacity 1, one queued message) and a full per-session ICE channel
(20 queued payloads). -/
theorem C8_nonblocking_channel_writes_witness :
    ServerState.send
        { groups := [], sessions := []
          sendCh := { buf := [exampleMsg MessageType.mute (MsgData.raw "")], cap := 1 } }
        (exampleMsg MessageType.mute (MsgData.raw "")) =
      ({ groups := [], sessions := []
         sendCh := { buf := [exampleMsg MessageType.mute (MsgData.raw "")], cap := 1 } },
        some SendErr.channelFull) ∧
    dispatchMsg
        (exampleServer
          (exampleSession false (List.replicate signalChSize (MsgData.raw "x")) [] [] "")
          none)
        (exampleMsg MessageType.ice (MsgData.raw "cand")) =
      (exampleServer
          (exampleSession false (List.replicate signalChSize (MsgData.raw "x")) [] [] "")
          none,
        [LogEvent.iceChanFull], StepOutcome.cont) :=
  ⟨C8_nonblocking_channel_writes.1 _ _ (by decide),
    C8_nonblocking_channel_writes.2.1 _ _ exampleCfg
      (exampleGroup (exampleSession false (List.replicate signalChSize (MsgData.raw "x")) [] [] "") none)
      (exampleCall (exampleSession false (List.replicate signalChSize (MsgData.raw "x")) [] [] "") none)
      (exampleSession false (List.replicate signalChSize (MsgData.raw "x")) [] [] "")
      (by decide) rfl (by decide) (by decide) (by decide) (by decide) (by decide)⟩

/-- **C9**: dispatching `ScreenOn` assigns the session's `screenStreamID`
from the payload before the screen-session election is attempted; when the
election fails because another session already holds the screen slot, an
error is logged, the pump continues, and nothing is rolled back — the updated
session keeps the newly-assigned stream id and the elected session is
unchanged. -/
theorem C9_screenOn_no_rollback (srv : ServerState) (msg : Message)
    (cfg : SessionConfig) (g : GroupState) (c : CallState) (sess : RTCSession)
    (entries : List (String × String)) (other : String)
    (hv : msg.isValid = true)
    (hmt : msg.mtype = MessageType.screenOn)
    (hdata : msg.data = MsgData.mapDoc entries)
    (h1 : alookup srv.sessions msg.sessionID = some cfg)
    (h2 : srv.getGroup cfg.groupID = some g)
    (h3 : g.getCall cfg.callID = some c)
    (h4 : c.getSession cfg.sessionID = some sess)
    (hsid : sess.cfg.sessionID = cfg.sessionID)
    (helected : c.screenSession = some other) :
    (dispatchMsg srv msg).2.1 = [LogEvent.screenSessionAlreadySet] ∧
    (dispatchMsg srv msg).2.2 = StepOutcome.cont ∧
    ∃ g' c',
      alookup (dispatchMsg srv msg).1.groups cfg.groupID = some g' ∧
      alookup g'.calls cfg.callID = some c' ∧
      alookup c'.sessions cfg.sessionID =
        some { sess with
          screenStreamID := (alookup entries "screenStreamID").getD "" } ∧
      c'.screenSession = some other := by
  set sess' : RTCSession :=
    { sess with screenStreamID := (alookup entries "screenStreamID").getD "" }
    with hsess'
  set c2 : CallState :=
    { c with sessions := aupdate c.sessions sess.cfg.sessionID sess' } with hc2
  have hstep : dispatchMsg srv msg =
      (writeBackCall srv cfg.groupID cfg.callID g c2,
        [LogEvent.screenSessionAlreadySet], StepOutcome.cont) := by
    simp [dispatchMsg, hv, h1, h2, h3, h4, hmt, hdata, unmarshalStringMap,
      CallState.setScreenSession, helected, hc2, hsess']
  rw [hstep]
  refine ⟨rfl, rfl, ?_⟩
  refine ⟨{ g with calls := aupdate g.calls cfg.callID c2 }, c2, ?_, ?_, ?_, ?_⟩
  · exact alookup_aupdate_self srv.groups cfg.groupID _ g h2
  · exact alookup_aupdate_self g.calls cfg.callID _ c h3
  · rw [hc2]
    show alookup (aupdate c.sessions sess.cfg.sessionID sess') cfg.sessionID = some sess'
    rw [hsid]
    exact alookup_aupdate_self c.sessions cfg.sessionID _ sess h4
  · exact helected

/-- Witness for `C9_screenOn_no_rollback`: the single session "s" sends
`ScreenOn{"screenStreamID": "streamX"}` while session "other" already holds
the screen slot. -/
theorem C9_screenOn_no_rollback_witness :
    (dispatchMsg (exampleServer (exampleSession false [] [] [] "") (some "other"))
      (exampleMsg MessageType.screenOn
        (MsgData.mapDoc [("screenStreamID", "streamX")]))).2.1 =
      [LogEvent.screenSessionAlreadySet] ∧
    ∃ g' c',
      alookup (dispatchMsg
          (exampleServer (exampleSession false [] [] [] "") (some "other"))
          (exampleMsg MessageType.screenOn
            (MsgData.mapDoc [("screenStreamID", "streamX")]))).1.groups
        exampleCfg.groupID = some g' ∧
      alookup g'.calls exampleCfg.callID = some c' ∧
      alookup c'.sessions exampleCfg.sessionID =
        some { exampleSession false [] [] [] "" with
          screenStreamID :=
            (alookup [("screenStreamID", "streamX")] "screenStreamID").getD "" } ∧
      c'.screenSession = some "other" := by
  have h := C9_screenOn_no_rollback
    (exampleServer (exampleSession false [] [] [] "") (some "other"))
    (exampleMsg MessageType.screenOn (MsgData.mapDoc [("screenStreamID", "streamX")]))
    exampleCfg
    (exampleGroup (exampleSession false [] [] [] "") (some "other"))
    (exampleCall (exampleSession false [] [] [] "") (some "other"))
    (exampleSession false [] [] [] "")
    [("screenStreamID", "streamX")] "other"
    (by decide) rfl rfl (by decide) (by decide) (by decide) (by decide) rfl rfl
  exact ⟨h.1, h.2.2⟩

/-- **C10**: a valid SDP message addressed to an existing session whose parsed
SDP type is neither offer nor answer (e.g. pranswer or rollback) makes the
pump function return: the message is not dispatched (the server state is
unchanged) and no later message from the inbound queue is ever processed —
unlike the per-message error paths, such as an invalid message, which log and
continue with the rest of the queue. -/
theorem C10_unexpected_sdp_type_halts_pump (srv : ServerState) (msg : Message)
    (cfg : SessionConfig) (g : GroupState) (c : CallState) (sess : RTCSession)
    (desc : SessionDescription)
    (hv : msg.isValid = true)
    (hmt : msg.mtype = MessageType.sdp)
    (hdata : msg.data = MsgData.sdpDoc desc)
    (hno : desc.sdpType ≠ SDPType.offer ∧ desc.sdpType ≠ SDPType.answer)
    (h1 : alookup srv.sessions msg.sessionID = some cfg)
    (h2 : srv.getGroup cfg.groupID = some g)
    (h3 : g.getCall cfg.callID = some c)
    (h4 : c.getSession cfg.sessionID = some sess) :
    (∀ rest : List Message,
      msgReaderRun srv (msg :: rest) = (srv, [LogEvent.unexpectedSdpType])) ∧
    (∀ bad : Message, bad.isValid = false → ∀ rest : List Message,
      msgReaderRun srv (bad :: rest) =
        ((msgReaderRun srv rest).1,
          LogEvent.invalidMessage :: (msgReaderRun srv rest).2)) := by
  have hstep : dispatchMsg srv msg =
      (srv, [LogEvent.unexpectedSdpType], StepOutcome.halted) := by
    simp [dispatchMsg, hv, h1, h2, h3, h4, hmt, hdata, unmarshalSDP, hno.1, hno.2]
  constructor
  · intro rest
    simp [msgReaderRun, hstep]
  · intro bad hbad rest
    have hstep2 : dispatchMsg srv bad =
        (srv, [LogEvent.invalidMessage], StepOutcome.cont) := by
      simp [dispatchMsg, hbad]
    simp [msgReaderRun, hstep2]

/-- Witness for `C10_unexpected_sdp_type_halts_pump`: a pranswer SDP message
followed by a mute message; the pump stops before the mute message. -/
theorem C10_unexpected_sdp_type_halts_pump_witness :
    msgReaderRun (exampleServer (exampleSession false [] [] [] "") none)
      [exampleMsg MessageType.sdp
         (MsgData.sdpDoc { sdpType := SDPType.pranswer, sdp := "v=0" }),
       exampleMsg MessageType.mute (MsgData.raw "")] =
      (exampleServer (exampleSession false [] [] [] "") none,
        [LogEvent.unexpectedSdpType]) :=
  (C10_unexpected_sdp_type_halts_pump
    (exampleServer (exampleSession false [] [] [] "") none)
    (exampleMsg MessageType.sdp
      (MsgData.sdpDoc { sdpType := SDPType.pranswer, sdp := "v=0" }))
    exampleCfg
    (exampleGroup (exampleSession false [] [] [] "") none)
    (exampleCall (exampleSession false [] [] [] "") none)
    (exampleSession false [] [] [] "")
    { sdpType := SDPType.pranswer, sdp := "v=0" }
    (by decide) rfl rfl (by decide) (by decide) (by decide) (by decide)
    (by decide)).1
    [exampleMsg MessageType.mute (MsgData.raw "")]

/-! ### Claim C4: session.addTrack -/

theorem set_append_len {α : Type} (a b : α) :
    ∀ l : List α, (l ++ [a]).set l.length b = l ++ [b] := by
  intro l
  induction l with
  | nil => rfl
  | cons x t ih =>
    show x :: (t ++ [a]).set t.length b = x :: (t ++ [b])
    rw [ih]

/-- **C4** — counterexample.  "If addTrack completes successfully for a video
track, the returned sender is stored as the session's screenTrackSender" is
false on the close path: when `closeCh` closes during signaling, `addTrack`
returns success (a nil error) for a video track but stores no sender. -/
theorem C4_counterexample :
    (addTrack emptyAddTrackState (some exampleScreenTrack)
        (exampleAddTrackEnv true AnswerOutcome.closed)).2 = none ∧
    exampleScreenTrack.kind = TrackKind.video ∧
    (addTrack emptyAddTrackState (some exampleScreenTrack)
        (exampleAddTrackEnv true AnswerOutcome.closed)).1.screenTrackSender = none := by
  decide

/-- **C4** (amended): if `addTrack` attaches the track but then fails — offer
send failure, SetRemoteDescription failure, or the signaling timeout — the
track is detached by replacing it with null and the outbound RTP-tracks
metric is decremented back to its original value (the claim's premise that
the replace call succeeds is `hrepl`); if `addTrack` completes by receiving
and applying an answer for a video track, the new sender (index
`st.senders.length`) is stored as `screenTrackSender`.  When signaling is
instead cut short by session close or answer-channel closure, `addTrack`
returns success WITHOUT storing the sender — the correction forced by
`C4_counterexample`. -/
theorem C4_addTrack_cleanup_and_sender (st : AddTrackState) (tr : Track)
    (env : AddTrackEnv)
    (hdup : (st.senders.any fun sd => sd.track = some tr) = false)
    (hscr : ¬(tr.kind = TrackKind.video ∧ st.screenTrackSender ≠ none))
    (hadd : env.addTrackOk = true) (hrepl : env.replaceOk = true) :
    ((addTrack st (some tr) env).2 ≠ none →
      ((addTrack st (some tr) env).1.senders.getD st.senders.length
          { track := some tr }).track = none ∧
      (addTrack st (some tr) env).1.metricOutTracks = st.metricOutTracks) ∧
    (env.offerOk = true → env.answerOutcome = AnswerOutcome.answer true →
      (addTrack st (some tr) env).2 = none ∧
      (tr.kind = TrackKind.video →
        (addTrack st (some tr) env).1.screenTrackSender = some st.senders.length)) ∧
    (env.offerOk = true →
      (env.answerOutcome = AnswerOutcome.closed ∨
        env.answerOutcome = AnswerOutcome.answerChClosed) →
      (addTrack st (some tr) env).2 = none ∧
      (addTrack st (some tr) env).1.screenTrackSender = st.screenTrackSender) := by
  obtain ⟨addOk, offerOk, ao, replOk⟩ := env
  simp only [] at hadd hrepl
  subst hadd
  subst hrepl
  cases offerOk with
  | false =>
    refine ⟨?_, ?_, ?_⟩
    · intro _
      constructor
      · simp [addTrack, hdup, hscr, addTrackCleanup, set_append_len, getD_append_len]
      · simp [addTrack, hdup, hscr, addTrackCleanup]
    · intro hfo
      cases hfo
    · intro hfo
      cases hfo
  | true =>
    cases ao with
    | answer ok =>
      cases ok with
      | true =>
        have hres : (addTrack st (some tr)
              { addTrackOk := true, offerOk := true
                answerOutcome := AnswerOutcome.answer true, replaceOk := true }).2 =
              none ∧
            (tr.kind = TrackKind.video →
              (addTrack st (some tr)
                { addTrackOk := true, offerOk := true
                  answerOutcome := AnswerOutcome.answer true
                  replaceOk := true }).1.screenTrackSender =
                some st.senders.length) := by
          by_cases htr : tr.kind = TrackKind.video
          · have hsen : st.screenTrackSender = none := by
              by_contra hne2
              exact hscr ⟨htr, hne2⟩
            constructor
            · simp [addTrack, hdup, hscr, htr, hsen]
            · intro _
              simp [addTrack, hdup, hscr, htr, hsen]
          · constructor
            · simp [addTrack, hdup, hscr, htr]
            · intro h
              exact absurd h htr
        refine ⟨?_, ?_, ?_⟩
        · intro hne
          exact absurd hres.1 hne
        · intro _ _
          exact hres
        · intro _ hor
          rcases hor with h | h <;> simp at h
      | false =>
        refine ⟨?_, ?_, ?_⟩
        · intro _
          constructor
          · simp [addTrack, hdup, hscr, addTrackCleanup, set_append_len, getD_append_len]
          · simp [addTrack, hdup, hscr, addTrackCleanup]
        · intro _ h
          simp at h
        · intro _ hor
          rcases hor with h | h <;> simp at h
    | answerChClosed =>
      refine ⟨?_, ?_, ?_⟩
      · intro hne
        exfalso
        apply hne
        simp [addTrack, hdup, hscr]
      · intro _ h
        simp at h
      · intro _ _
        constructor
        · simp [addTrack, hdup, hscr]
        · simp [addTrack, hdup, hscr]
    | timeout =>
      refine ⟨?_, ?_, ?_⟩
      · intro _
        constructor
        · simp [addTrack, hdup, hscr, addTrackCleanup, set_append_len, getD_append_len]
        · simp [addTrack, hdup, hscr, addTrackCleanup]
      · intro _ h
        simp at h
      · intro _ hor
        rcases hor with h | h <;> simp at h
    | closed =>
      refine ⟨?_, ?_, ?_⟩
      · intro hne
        exfalso
        apply hne
        simp [addTrack, hdup, hscr]
      · intro _ h
        simp at h
      · intro _ _
        constructor
        · simp [addTrack, hdup, hscr]
        · simp [addTrack, hdup, hscr]

/-- Witness for `C4_addTrack_cleanup_and_sender`: a fresh session adds the
sample video track, the answer is received and applied, and the sender at
index 0 becomes the screen-track sender. -/
theorem C4_addTrack_cleanup_and_sender_witness :
    (addTrack emptyAddTrackState (some exampleScreenTrack)
        (exampleAddTrackEnv true (AnswerOutcome.answer true))).2 = none ∧
    (addTrack emptyAddTrackState (some exampleScreenTrack)
        (exampleAddTrackEnv true (AnswerOutcome.answer true))).1.screenTrackSender =
      some 0 :=
  have h := (C4_addTrack_cleanup_and_sender emptyAddTrackState exampleScreenTrack
    (exampleAddTrackEnv true (AnswerOutcome.answer true)) (by decide) (by decide)
    rfl rfl).2.1 rfl rfl
  ⟨h.1, h.2 rfl⟩

end Rtcd
